import Mathlib

/-!
Verification of the Impala HDFS Avro scanner
(`be/src/exec/hdfs-avro-scanner.cc`).

The definitions below are a shallow embedding of the scanner: pure C++
functions become Lean functions, the byte stream becomes a `List Nat` of
bytes (each < 256 by construction of the readers), mutation of the parse
state becomes explicit state passing, and fallible code returns
`Except AvroError` or `Option`.  Collaborators that live outside this
repository slice (the Avro C library, the decompressor, the tuple sink,
the IR leaf readers) are modelled from the spec, as oracle fields of a
`ScanEnv` where their behaviour is unconstrained and as concrete Lean
functions where the spec fixes their behaviour; each such definition says
so in its doc comment.
-/

namespace ImpalaAvro

/-- Impala primitive column types (`runtime/types.h`), restricted to the
members this scanner mentions. -/
inductive PrimitiveType where
  | INVALID_TYPE
  | TYPE_NULL
  | TYPE_BOOLEAN
  | TYPE_TINYINT
  | TYPE_SMALLINT
  | TYPE_INT
  | TYPE_BIGINT
  | TYPE_FLOAT
  | TYPE_DOUBLE
  | TYPE_TIMESTAMP
  | TYPE_STRING
  | TYPE_VARCHAR
  | TYPE_CHAR
  | TYPE_DECIMAL
deriving DecidableEq, Repr

/-- Impala `ColumnType`: a primitive type tag plus the decimal
precision/scale and the varchar/char length. -/
structure ColumnType where
  type : PrimitiveType
  precision : Int
  scale : Int
  len : Int
deriving DecidableEq, Repr

/-- Modelled from the spec: `ColumnType::IsStringType()` (defined in
`runtime/types.h`, outside this source slice) holds for the string family
string, varchar and char. -/
def ColumnType.IsStringType (t : ColumnType) : Bool :=
  t.type = PrimitiveType.TYPE_STRING || t.type = PrimitiveType.TYPE_VARCHAR ||
    t.type = PrimitiveType.TYPE_CHAR

/-- `HdfsAvroScanner::VerifyTypesMatch(const ColumnType&, const ColumnType&)`
(lines 408-453): the writer-to-reader promotion check, a switch on the
writer type.  The `default:` arm of the C++ switch DCHECK-fails and
returns false. -/
def verifyTypesMatch (reader_type writer_type : ColumnType) : Bool :=
  match writer_type.type with
  | PrimitiveType.TYPE_DECIMAL =>
      if reader_type.type ≠ PrimitiveType.TYPE_DECIMAL then false
      else if reader_type.scale ≠ writer_type.scale then false
      else if reader_type.precision ≠ writer_type.precision then false
      else true
  | PrimitiveType.TYPE_STRING => reader_type.IsStringType
  | PrimitiveType.TYPE_INT =>
      match reader_type.type with
      | PrimitiveType.TYPE_INT => true
      | PrimitiveType.TYPE_BIGINT => true
      | PrimitiveType.TYPE_FLOAT => true
      | PrimitiveType.TYPE_DOUBLE => true
      | _ => false
  | PrimitiveType.TYPE_BIGINT =>
      match reader_type.type with
      | PrimitiveType.TYPE_BIGINT => true
      | PrimitiveType.TYPE_FLOAT => true
      | PrimitiveType.TYPE_DOUBLE => true
      | _ => false
  | PrimitiveType.TYPE_FLOAT =>
      match reader_type.type with
      | PrimitiveType.TYPE_FLOAT => true
      | PrimitiveType.TYPE_DOUBLE => true
      | _ => false
  | PrimitiveType.TYPE_DOUBLE => reader_type.type = PrimitiveType.TYPE_DOUBLE
  | PrimitiveType.TYPE_BOOLEAN => reader_type.type = PrimitiveType.TYPE_BOOLEAN
  | _ => false

/-- Modelled from the spec (section 4.1): `ReadWriteUtil::ReadZLong`'s
varint accumulation, 7 bits per byte little-endian, most significant bit
of each byte is the continuation flag.  Returns the unsigned accumulator
and the remaining bytes, or `none` on underflow (ShortRead). -/
def readVarintAux : List Nat → Nat → Nat → Option (Nat × List Nat)
  | [], _, _ => none
  | b :: rest, shift, acc =>
      let acc' := acc + (b % 128) * 2 ^ shift
      if b < 128 then some (acc', rest)
      else readVarintAux rest (shift + 7) acc'

/-- Zig-zag finalisation `(u >> 1) ^ -(u & 1)` on a 64-bit unsigned
accumulator, as a signed integer. -/
def zigzagDecode (u : Nat) : Int :=
  let u64 := u % 2 ^ 64
  if u64 % 2 = 1 then -(Int.ofNat (u64 / 2)) - 1 else Int.ofNat (u64 / 2)

/-- Modelled from the spec (section 4.1): `stream_->ReadZLong`, the
zig-zag variable-length long read.  `none` is a ShortRead. -/
def readZLong (bytes : List Nat) : Option (Int × List Nat) :=
  match readVarintAux bytes 0 0 with
  | none => none
  | some (u, rest) => some (zigzagDecode u, rest)

/-- Modelled from the spec (section 4.1): `stream_->ReadBytes(n)`.
`none` is a ShortRead (underflow). -/
def readBytesN (n : Nat) (bytes : List Nat) : Option (List Nat × List Nat) :=
  if n ≤ bytes.length then some (bytes.take n, bytes.drop n) else none

/-- Avro type tags (`avro_type_t` of the Avro C library together with
Impala's `AVRO_DECIMAL` extension carrying precision and scale). -/
inductive AvroTy where
  | anull
  | aboolean
  | aint32
  | aint64
  | afloat
  | adouble
  | astring
  | abytes
  | adecimal (precision scale : Nat)
  | arecord
  | aenum
  | afixed
  | amap
  | aarray
  | aunion
  | alink
deriving DecidableEq, Repr

/-- Avro datum (`avro_datum_t`): a concrete value, used for the default
values of reader record fields.  Float and double payloads are kept as
raw IEEE-754 bit patterns. -/
inductive AvroDatum where
  | dboolean (v : Bool)
  | dint32 (v : Int)
  | dint64 (v : Int)
  | dfloat (bits : Nat)
  | ddouble (bits : Nat)
  | dstring (bytes : List Nat)
  | dbytes (bytes : List Nat)
  | dnull
  | drecord
  | dother (ty : AvroTy)
deriving DecidableEq, Repr

/-- Type tag of a datum (the `default_value->type` read by
`WriteDefaultValue`). -/
def AvroDatum.ty : AvroDatum → AvroTy
  | .dboolean _ => .aboolean
  | .dint32 _ => .aint32
  | .dint64 _ => .aint64
  | .dfloat _ => .afloat
  | .ddouble _ => .adouble
  | .dstring _ => .astring
  | .dbytes _ => .abytes
  | .dnull => .anull
  | .drecord => .arecord
  | .dother t => t

/-- Slot descriptor supplied by the scan node: the column path (ordinal
path into the table schema, first step offset by the partition keys), the
slot's column type, its tuple layout and the table column name used in
error messages. -/
structure SlotDescriptor where
  colPath : List Int
  colType : ColumnType
  tupleOffset : Nat
  nullIndicatorOffset : Nat
  colName : String
deriving DecidableEq, Repr

mutual
/-- `AvroSchemaElement` merged with the raw `avro_schema_t` it wraps: the
type tag, the position of the null branch when the element came from a
`[null, T]` union (`-1` otherwise), the slot descriptor the resolver
attached (`NULL` before resolution), and for records the ordered named
fields with their optional default values. -/
inductive AvroSchemaElement where
  | mk (ty : AvroTy) (nullUnionPos : Int) (slotDesc : Option SlotDescriptor)
       (fields : AvroFields)
/-- Ordered record fields: name, optional default value, child element. -/
inductive AvroFields where
  | nil
  | cons (name : String) (dflt : Option AvroDatum) (el : AvroSchemaElement)
         (rest : AvroFields)
end

/-- Type tag of an element (`element.schema->type`). -/
def AvroSchemaElement.ty : AvroSchemaElement → AvroTy
  | .mk t _ _ _ => t

/-- Null-union position of an element (`element.null_union_position`). -/
def AvroSchemaElement.nullUnionPos : AvroSchemaElement → Int
  | .mk _ p _ _ => p

/-- Slot descriptor attached to an element (`element.slot_desc`). -/
def AvroSchemaElement.slotDesc : AvroSchemaElement → Option SlotDescriptor
  | .mk _ _ s _ => s

/-- Record fields of an element (`schema->record.fields` together with
the wrapper's `children`). -/
def AvroSchemaElement.fields : AvroSchemaElement → AvroFields
  | .mk _ _ _ f => f

/-- `AvroSchemaElement::nullable()`: the element came from a `[null, T]`
union. -/
def AvroSchemaElement.nullable (e : AvroSchemaElement) : Bool :=
  e.nullUnionPos != -1

/-- Number of fields of a record (`table_record->children.size()`). -/
def AvroFields.length : AvroFields → Nat
  | .nil => 0
  | .cons _ _ _ rest => 1 + rest.length

/-- Concatenation of field lists (used only to state theorems about the
materializer's traversal order). -/
def AvroFields.append : AvroFields → AvroFields → AvroFields
  | .nil, gs => gs
  | .cons n d e rest, gs => .cons n d e (rest.append gs)

/-- Field at a (possibly negative) index, as the C code's
`children[idx]` / `avro_schema_record_field_name(schema, idx)` access.
`none` models the out-of-bounds access, which has no defined behaviour in
the C source. -/
def AvroFields.fieldAt? : AvroFields → Int → Option (String × Option AvroDatum × AvroSchemaElement)
  | .nil, _ => none
  | .cons n d e rest, i =>
      if i = 0 then some (n, d, e)
      else if i < 0 then none
      else rest.fieldAt? (i - 1)

/-- `avro_schema_record_field_get_index`: index of the field with the
given name, `-1` when the name is absent. -/
def AvroFields.indexOfName : AvroFields → String → Int
  | .nil, _ => -1
  | .cons n _ _ rest, name =>
      if n = name then 0
      else
        let j := rest.indexOfName name
        if j < 0 then -1 else j + 1

mutual
/-- Modelled from the spec: `avro_schema_equal` (Avro C library, outside
this source slice), the structural equality of two schema trees used at
line 170 to decide `use_codegend_decode_avro_data`.  Slot attachments and
default values are not part of the raw schema and are ignored. -/
def avroSchemaEqual : AvroSchemaElement → AvroSchemaElement → Bool
  | .mk t1 p1 _ f1, .mk t2 p2 _ f2 =>
      t1 == t2 && p1 == p2 && avroFieldsEqual f1 f2
/-- Structural equality of field lists: same length, names and child
schemas pointwise. -/
def avroFieldsEqual : AvroFields → AvroFields → Bool
  | .nil, .nil => true
  | .cons n1 _ e1 r1, .cons n2 _ e2 r2 =>
      n1 == n2 && avroSchemaEqual e1 e2 && avroFieldsEqual r1 r2
  | _, _ => false
end

/-- Error kinds surfaced by the scanner.  Constructors mirror the
`TErrorCode` values and ad-hoc `Status` strings of the source; file names
and file offsets attached to the C++ `Status` are dropped, the
distinguishing payloads (counts, lengths, field names) are kept.
`outOfBoundsFieldAccess` models a record-field access whose index is
outside the record — behaviour the C source leaves undefined — and
`loopStuck` models a loop that the C source would never exit. -/
inductive AvroError where
  | shortRead
  | badVersionHeader
  | invalidMetadataCount (n : Int)
  | invalidLength (n : Int)
  | badSchema
  | unknownCodec (codec : List Nat)
  | schemaNotFound
  | tableSchemaNotRecord
  | fileSchemaNotRecord
  | missingField (idx : Int) (numFields : Nat)
  | missingDefault (name : String)
  | unsupportedDefaultValue (name : String)
  | notARecord (name : String)
  | nullabilityMismatch (name : String)
  | schemaResolutionError (name : String)
  | schemaMetadataMismatch (name : String)
  | invalidRecordCount (n : Int)
  | invalidCompressedSize (n : Int)
  | decompressFailed
  | syncLost
  | invalidValue
  | valueOverflow
  | unsupportedType
  | outOfBoundsFieldAccess (idx : Int)
  | loopStuck
  | outOfFuel
deriving DecidableEq, Repr

/-- Result of one `DecodeAvroData` call: rows to commit, the data cursor
after the call, and the parse status it left behind (`none` = OK). -/
structure DecodeResult where
  numToCommit : Nat
  rest : List Nat
  err : Option AvroError
deriving Repr

/-- Compression selection (`THdfsCompression`), restricted to the codecs
this scanner accepts. -/
inductive CompressionType where
  | NONE
  | SNAPPY
  | DEFLATE
deriving DecidableEq, Repr

/-- Collaborators of the scanner that live outside this source slice,
modelled from the spec as oracles: the scan node's reader schema,
materialized slots and partition-key count; the Avro JSON schema parser
combined with `AvroSchemaElement::ConvertSchema`; the decompressor; the
tuple sink's buffer capacity (`GetMemory`), row limit
(`scan_node_->ReachedLimit()`), and the batch decoder `DecodeAvroData`
(defined in `hdfs-avro-scanner-ir.cc`, outside this slice). -/
structure ScanEnv where
  readerSchema : AvroSchemaElement
  materializedSlots : List SlotDescriptor
  numPartitionKeys : Nat
  schemaOfJson : List Nat → Option AvroSchemaElement
  decompress : List Nat → Option (List Nat)
  capacity : Nat
  reachedLimit : Bool
  decodeAvroData : Nat → List Nat → DecodeResult

/-- Modelled from the spec: `AvroSchemaToColumnType` (declared in the
scanner's header, outside this slice), the map from Avro leaf types to
Impala column types; both string and bytes become `TYPE_STRING`. -/
def avroToColumnType : AvroTy → ColumnType
  | .aboolean => ⟨PrimitiveType.TYPE_BOOLEAN, 0, 0, 0⟩
  | .aint32 => ⟨PrimitiveType.TYPE_INT, 0, 0, 0⟩
  | .aint64 => ⟨PrimitiveType.TYPE_BIGINT, 0, 0, 0⟩
  | .afloat => ⟨PrimitiveType.TYPE_FLOAT, 0, 0, 0⟩
  | .adouble => ⟨PrimitiveType.TYPE_DOUBLE, 0, 0, 0⟩
  | .astring => ⟨PrimitiveType.TYPE_STRING, 0, 0, 0⟩
  | .abytes => ⟨PrimitiveType.TYPE_STRING, 0, 0, 0⟩
  | .adecimal p s => ⟨PrimitiveType.TYPE_DECIMAL, (p : Int), (s : Int), 0⟩
  | _ => ⟨PrimitiveType.INVALID_TYPE, 0, 0, 0⟩

/-- Body of `VerifyTypesMatch(const AvroSchemaElement&, const
AvroSchemaElement&, const string&)` after the nullability gate (lines
357-385): the null-writer rule, the record/record rule and the
column-type promotion check. -/
def verifyTypesMatchElemTail (table_schema file_schema : AvroSchemaElement)
    (field_name : String) : Except AvroError Unit :=
  if file_schema.ty = AvroTy.anull then
    if table_schema.ty = AvroTy.anull || table_schema.nullable then .ok ()
    else .error (.schemaResolutionError field_name)
  else if xor (table_schema.ty = AvroTy.arecord) (file_schema.ty = AvroTy.arecord) then
    .error (.schemaResolutionError field_name)
  else if table_schema.ty = AvroTy.arecord then .ok ()
  else
    let reader_type := avroToColumnType table_schema.ty
    let writer_type := avroToColumnType file_schema.ty
    if verifyTypesMatch reader_type writer_type then .ok ()
    else .error (.schemaResolutionError field_name)

/-- `VerifyTypesMatch(const AvroSchemaElement&, const AvroSchemaElement&,
const string&)` (lines 349-385): the nullability gate followed by the
type rules of `verifyTypesMatchElemTail`. -/
def verifyTypesMatchElem (table_schema file_schema : AvroSchemaElement)
    (field_name : String) : Except AvroError Unit :=
  if !table_schema.nullable && file_schema.nullable then
    .error (.nullabilityMismatch field_name)
  else verifyTypesMatchElemTail table_schema file_schema field_name

/-- `VerifyTypesMatch(SlotDescriptor*, avro_obj_t*)` (lines 387-406),
with the datum's type standing for the raw schema object: null always
matches, records never do, anything else goes through the column-type
promotion check. -/
def verifyTypesMatchSlot (slot_desc : SlotDescriptor) (ty : AvroTy) :
    Except AvroError Unit :=
  if ty = AvroTy.anull then .ok ()
  else if ty = AvroTy.arecord then .error (.schemaMetadataMismatch slot_desc.colName)
  else if verifyTypesMatch slot_desc.colType (avroToColumnType ty) then .ok ()
  else .error (.schemaMetadataMismatch slot_desc.colName)

/-- One write into the template tuple: the slot's tuple offset and the
default value written there (`none` = the null-indicator bit was set). -/
def TemplateTuple := List (Nat × Option AvroDatum)

/-- `HdfsAvroScanner::WriteDefaultValue` (lines 280-347): decode a reader
default value into the template tuple.  Booleans, integers, floats,
strings/bytes and null are supported; every other datum type takes the
`default:` arm and fails with `AVRO_UNSUPPORTED_DEFAULT_VALUE` (the
spec's UnsupportedDefault / UnsupportedDefaultRecord). -/
def writeDefaultValue (slot_desc : SlotDescriptor) (default_value : AvroDatum)
    (field_name : String) (tmpl : TemplateTuple) : Except AvroError TemplateTuple :=
  match default_value with
  | .dboolean _ | .dint32 _ | .dint64 _ | .dfloat _ | .ddouble _
  | .dstring _ | .dbytes _ =>
      match verifyTypesMatchSlot slot_desc default_value.ty with
      | .error e => .error e
      | .ok _ => .ok ((slot_desc.tupleOffset, some default_value) :: tmpl)
  | .dnull =>
      match verifyTypesMatchSlot slot_desc AvroTy.anull with
      | .error e => .error e
      | .ok _ => .ok ((slot_desc.tupleOffset, none) :: tmpl)
  | _ => .error (.unsupportedDefaultValue field_name)

/-- Body of the per-slot loop of `HdfsAvroScanner::ResolveSchemas`
(lines 230-275), one recursive step per column-path entry.  `isFirst`
holds at depth 0 (`i == 0` in the source), where the partition-key count
is subtracted from the path entry; `rest.isEmpty` is the source's
`i == path.size() - 1`.  The `continue` of the default-value branch is
the recursive call that keeps the current table and file records. -/
def resolveSlotLoop (env : ScanEnv) (slot_desc : SlotDescriptor) (isFirst : Bool) :
    List Int → AvroSchemaElement → AvroSchemaElement → TemplateTuple →
    Except AvroError TemplateTuple
  | [], _, _, tmpl => .ok tmpl
  | p :: rest, table_record, file_record, tmpl =>
      let table_field_idx : Int :=
        if isFirst then p - (env.numPartitionKeys : Int) else p
      let num_fields := table_record.fields.length
      if table_field_idx ≥ (num_fields : Int) then
        .error (.missingField table_field_idx num_fields)
      else
        match table_record.fields.fieldAt? table_field_idx with
        | none => .error (.outOfBoundsFieldAccess table_field_idx)
        | some (field_name, dflt, table_field) =>
            let file_field_idx := file_record.fields.indexOfName field_name
            if file_field_idx < 0 then
              match dflt with
              | none => .error (.missingDefault field_name)
              | some default_value =>
                  match writeDefaultValue slot_desc default_value field_name tmpl with
                  | .error e => .error e
                  | .ok tmpl' =>
                      resolveSlotLoop env slot_desc false rest table_record
                        file_record tmpl'
            else
              match file_record.fields.fieldAt? file_field_idx with
              | none => .error (.outOfBoundsFieldAccess file_field_idx)
              | some (_, _, file_field) =>
                  match verifyTypesMatchElem table_field file_field field_name with
                  | .error e => .error e
                  | .ok _ =>
                      if !rest.isEmpty then
                        if table_record.ty ≠ AvroTy.arecord then
                          .error (.notARecord field_name)
                        else
                          resolveSlotLoop env slot_desc false rest table_field
                            file_field tmpl
                      else
                        match verifyTypesMatchSlot slot_desc table_field.ty with
                        | .error e => .error e
                        | .ok _ => .ok tmpl

/-- Iteration of `ResolveSchemas` over the scan node's materialized
slots, threading the template tuple. -/
def resolveSlots (env : ScanEnv) (table_root file_root : AvroSchemaElement) :
    List SlotDescriptor → TemplateTuple → Except AvroError TemplateTuple
  | [], tmpl => .ok tmpl
  | slot :: slots, tmpl =>
      match resolveSlotLoop env slot true slot.colPath table_root file_root tmpl with
      | .error e => .error e
      | .ok tmpl' => resolveSlots env table_root file_root slots tmpl'

/-- `HdfsAvroScanner::ResolveSchemas` (lines 216-278): both roots must be
records, then every materialized slot's column path is resolved.  The
write of `file_field.slot_desc` (line 273) is a benign annotation no
verified property reads and is not tracked; every error path is. -/
def resolveSchemas (env : ScanEnv) (table_root file_root : AvroSchemaElement)
    (tmpl : TemplateTuple) : Except AvroError TemplateTuple :=
  if table_root.ty ≠ AvroTy.arecord then .error .tableSchemaNotRecord
  else if file_root.ty ≠ AvroTy.arecord then .error .fileSchemaNotRecord
  else resolveSlots env table_root file_root env.materializedSlots tmpl

/-- ASCII bytes of the metadata key `"avro.schema"`. -/
def AVRO_SCHEMA_KEY : List Nat := [97, 118, 114, 111, 46, 115, 99, 104, 101, 109, 97]

/-- ASCII bytes of the metadata key `"avro.codec"`. -/
def AVRO_CODEC_KEY : List Nat := [97, 118, 114, 111, 46, 99, 111, 100, 101, 99]

/-- ASCII bytes of the codec value `"null"`. -/
def AVRO_NULL_CODEC : List Nat := [110, 117, 108, 108]

/-- ASCII bytes of the codec value `"snappy"`. -/
def AVRO_SNAPPY_CODEC : List Nat := [115, 110, 97, 112, 112, 121]

/-- ASCII bytes of the codec value `"deflate"`. -/
def AVRO_DEFLATE_CODEC : List Nat := [100, 101, 102, 108, 97, 116, 101]

/-- `AvroFileHeader` (plus the `FileHeader` base): compression selection,
raw codec string, the parsed writer schema, the codegen eligibility flag,
the template tuple of decoded defaults and the 16-byte sync marker. -/
structure AvroFileHeader where
  isCompressed : Bool
  compressionType : CompressionType
  codec : List Nat
  fileSchema : Option AvroSchemaElement
  useCodegendDecodeAvroData : Bool
  templateTuple : TemplateTuple
  sync : List Nat

/-- Header state before any metadata entry is processed: uncompressed,
no writer schema, codegen flag cleared (value-initialised by
`AllocateFileHeader`). -/
def initialHeader : AvroFileHeader :=
  ⟨false, CompressionType.NONE, [], none, false, [], []⟩

/-- One metadata entry of `ParseMetadata`'s inner `for` loop (lines
130-191): decode the string key and bytes value, then dispatch on the
key.  The `avro.schema` entry parses and converts the writer schema,
resolves it against the scan node's table schema and records
`use_codegend_decode_avro_data = avro_schema_equal(table, file)`; the
`avro.codec` entry selects the codec; other keys are skipped. -/
def parseEntry (env : ScanEnv) (hdr : AvroFileHeader) (bytes : List Nat) :
    Except AvroError (AvroFileHeader × List Nat) :=
  match readZLong bytes with
  | none => .error .shortRead
  | some (key_len, bytes1) =>
      if key_len < 0 then .error (.invalidLength key_len)
      else match readBytesN key_len.toNat bytes1 with
      | none => .error .shortRead
      | some (key, bytes2) =>
          match readZLong bytes2 with
          | none => .error .shortRead
          | some (value_len, bytes3) =>
              if value_len < 0 then .error (.invalidLength value_len)
              else match readBytesN value_len.toNat bytes3 with
              | none => .error .shortRead
              | some (value, bytes4) =>
                  if key = AVRO_SCHEMA_KEY then
                    match env.schemaOfJson value with
                    | none => .error .badSchema
                    | some file_schema =>
                        match resolveSchemas env env.readerSchema file_schema
                            hdr.templateTuple with
                        | .error e => .error e
                        | .ok tmpl =>
                            let eq := avroSchemaEqual env.readerSchema file_schema
                            let hdr' := { hdr with
                                          fileSchema := some file_schema,
                                          templateTuple := tmpl,
                                          useCodegendDecodeAvroData := eq }
                            .ok (hdr', bytes4)
                  else if key = AVRO_CODEC_KEY then
                    if value ≠ AVRO_NULL_CODEC then
                      if value = AVRO_SNAPPY_CODEC then
                        let hdr' := { hdr with
                                      isCompressed := true,
                                      codec := value,
                                      compressionType := CompressionType.SNAPPY }
                        .ok (hdr', bytes4)
                      else if value = AVRO_DEFLATE_CODEC then
                        let hdr' := { hdr with
                                      isCompressed := true,
                                      codec := value,
                                      compressionType := CompressionType.DEFLATE }
                        .ok (hdr', bytes4)
                      else .error (.unknownCodec value)
                    else .ok (hdr, bytes4)
                  else .ok (hdr, bytes4)

/-- The inner `for (int i = 0; i < num_entries; ++i)` of `ParseMetadata`,
as a recursion on the remaining entry count. -/
def parseEntries (env : ScanEnv) : Nat → AvroFileHeader → List Nat →
    Except AvroError (AvroFileHeader × List Nat)
  | 0, hdr, bytes => .ok (hdr, bytes)
  | n + 1, hdr, bytes =>
      match parseEntry env hdr bytes with
      | .error e => .error e
      | .ok (hdr', bytes') => parseEntries env n hdr' bytes'

/-- The outer `while (num_entries != 0)` of `ParseMetadata` (lines
128-197): process `num_entries` entries, read the next block count,
reject a negative one with `AVRO_INVALID_METADATA_COUNT`, stop on zero.
The C loop consumes at least one byte per iteration, so a fuel of one
more than the stream length is never exhausted. -/
def parseMetadataLoop (env : ScanEnv) : Nat → Int → AvroFileHeader → List Nat →
    Except AvroError (AvroFileHeader × List Nat)
  | 0, _, _, _ => .error .outOfFuel
  | fuel + 1, num_entries, hdr, bytes =>
      if num_entries = 0 then .ok (hdr, bytes)
      else
        match parseEntries env num_entries.toNat hdr bytes with
        | .error e => .error e
        | .ok (hdr', bytes') =>
            match readZLong bytes' with
            | none => .error .shortRead
            | some (n', bytes'') =>
                if n' < 0 then .error (.invalidMetadataCount n')
                else parseMetadataLoop env fuel n' hdr' bytes''

/-- `HdfsAvroScanner::ParseMetadata` (lines 117-206): clear the
compression state, read the first block count — rejecting any value below
one with `AVRO_INVALID_METADATA_COUNT` — run the map loop, and require a
writer schema with at least one field. -/
def parseMetadata (env : ScanEnv) (bytes : List Nat) :
    Except AvroError (AvroFileHeader × List Nat) :=
  let hdr := initialHeader
  match readZLong bytes with
  | none => .error .shortRead
  | some (num_entries, bytes1) =>
      if num_entries < 1 then .error (.invalidMetadataCount num_entries)
      else
        match parseMetadataLoop env (bytes1.length + 1) num_entries hdr bytes1 with
        | .error e => .error e
        | .ok (hdr', bytes') =>
            match hdr'.fileSchema with
            | none => .error .schemaNotFound
            | some fs =>
                if fs.fields.length = 0 then .error .schemaNotFound
                else .ok (hdr', bytes')

/-- Wrap a decompressor result (`decompressor_->ProcessBlock`): a failed
decompression bubbles up as an error. -/
def decompressResult : Option (List Nat) → Except AvroError (List Nat)
  | none => .error .decompressFailed
  | some data => .ok data

/-- Block-payload preparation of `ProcessRange` (lines 504-517): for a
compressed file the decompressor is invoked — for the snappy codec on the
block size minus the 4 trailing CRC bytes
(`SnappyDecompressor::TRAILING_CHECKSUM_LEN`), for deflate on the full
block size — while an uncompressed block is used directly.  The `take`
models the (pointer, length) pair the C code hands the decompressor. -/
def blockData (env : ScanEnv) (hdr : AvroFileHeader) (compressed_data : List Nat)
    (compressed_size : Int) : Except AvroError (List Nat) :=
  if hdr.isCompressed then
    let size :=
      if hdr.compressionType = CompressionType.SNAPPY then compressed_size - 4
      else compressed_size
    decompressResult (env.decompress (compressed_data.take size.toNat))
  else .ok compressed_data

/-- Modelled from the spec: `BaseSequenceScanner::ReadSync` (outside this
slice) reads the 16 bytes after the block payload and compares them to
the header's sync marker; a mismatch is `SyncLost`, fatal for the file. -/
def readSync (hdr : AvroFileHeader) (bytes : List Nat) :
    Except AvroError (List Nat) :=
  match readBytesN 16 bytes with
  | none => .error .shortRead
  | some (sync, rest) => if sync = hdr.sync then .ok rest else .error .syncLost

/-- One batch of the inner block loop (lines 530-541): when no slot is
materialized `WriteEmptyTuples` commits the whole batch without touching
the data (the spec's `sink.emit_empty`), otherwise `DecodeAvroData`
decodes up to `max_tuples` records from the cursor. -/
def blockBatchResult (env : ScanEnv) (max_tuples : Nat) (data : List Nat) :
    DecodeResult :=
  if env.materializedSlots.isEmpty then DecodeResult.mk max_tuples data none
  else env.decodeAvroData max_tuples data

/-- The inner `while (num_records > 0)` of `ProcessRange` (lines
521-548): reserve sink memory (`env.capacity` rows), decode
`min(num_records, capacity)` records, commit what the decoder reports,
and subtract the batch from the remaining record count, stopping early
when the scan node's row limit is reached.  `loopStuck` stands for the
infinite loop a zero capacity would be in C; the fuel, one more than the
record count, is never exhausted otherwise. -/
def blockDecodeLoop (env : ScanEnv) : Nat → Int → List Nat → Nat →
    Except AvroError Nat
  | 0, _, _, _ => .error .outOfFuel
  | fuel + 1, num_records, data, committed =>
      if num_records > 0 then
        if min num_records ((env.capacity : Int)) ≤ 0 then .error .loopStuck
        else
          match blockBatchResult env
              (min num_records ((env.capacity : Int))).toNat data with
          | ⟨_, _, some e⟩ => .error e
          | ⟨num_to_commit, data', none⟩ =>
              if env.reachedLimit then .ok (committed + num_to_commit)
              else blockDecodeLoop env fuel
                (num_records - min num_records ((env.capacity : Int))) data'
                (committed + num_to_commit)
      else .ok committed

/-- One iteration of the block loop of `HdfsAvroScanner::ProcessRange`
(lines 480-554): read the record count (non-negative, else
`AVRO_INVALID_RECORD_COUNT`) and byte size (non-negative, else
`AVRO_INVALID_COMPRESSED_SIZE`) of the block, read the payload, prepare
the block data, decode and commit the records, then check the trailing
sync marker.  Returns the committed row count and the stream after the
sync marker. -/
def processBlock (env : ScanEnv) (hdr : AvroFileHeader) (input : List Nat) :
    Except AvroError (Nat × List Nat) :=
  match readZLong input with
  | none => .error .shortRead
  | some (num_records, bytes1) =>
      if num_records < 0 then .error (.invalidRecordCount num_records)
      else match readZLong bytes1 with
      | none => .error .shortRead
      | some (compressed_size, bytes2) =>
          if compressed_size < 0 then .error (.invalidCompressedSize compressed_size)
          else match readBytesN compressed_size.toNat bytes2 with
          | none => .error .shortRead
          | some (compressed_data, bytes3) =>
              match blockData env hdr compressed_data compressed_size with
              | .error e => .error e
              | .ok data =>
                  match blockDecodeLoop env (num_records.toNat + 1) num_records
                      data 0 with
                  | .error e => .error e
                  | .ok committed =>
                      match readSync hdr bytes3 with
                      | .error e => .error e
                      | .ok bytes4 => .ok (committed, bytes4)

/-- One value written into a tuple slot by the materializer.  Numeric
promotion is recorded as the pair of the slot's primitive type and the
decoded payload; float and double payloads stay raw little-endian
bytes. -/
inductive SlotWrite where
  | nullBit
  | boolean (v : Bool)
  | intPromoted (slotType : PrimitiveType) (v : Int)
  | floatBytes (slotType : PrimitiveType) (bytes : List Nat)
  | strBytes (bytes : List Nat)
  | decimalBytes (bytes : List Nat)
deriving DecidableEq, Repr

/-- State threaded through `MaterializeTuple`: the data cursor (the
remaining bytes between `*data` and `data_end`), the tuple writes made so
far (offset, value), and `parse_status_` (`none` = OK). -/
structure DecodeState where
  data : List Nat
  tuple : List (Nat × SlotWrite)
  status : Option AvroError
deriving Repr

/-- Record a parse failure (`SetStatusCorruptData` and friends). -/
def DecodeState.fail (st : DecodeState) (e : AvroError) : Bool × DecodeState :=
  (false, ⟨st.data, st.tuple, some e⟩)

/-- Write a slot value at a tuple offset. -/
def DecodeState.write (st : DecodeState) (off : Nat) (w : SlotWrite) : DecodeState :=
  ⟨st.data, (off, w) :: st.tuple, st.status⟩

/-- Set the null-indicator bit of the slot, when one is bound
(`tuple->SetNull(slot_desc->null_indicator_offset())`). -/
def setNullIfSlot (slotOpt : Option SlotDescriptor) (st : DecodeState) : DecodeState :=
  match slotOpt with
  | none => st
  | some s => st.write s.nullIndicatorOffset SlotWrite.nullBit

/-- Modelled from the spec: decimal slot byte size derived from the
precision (`ColumnType::GetByteSize` for `TYPE_DECIMAL`, outside this
slice). -/
def decimalByteSize (precision : Int) : Nat :=
  if precision ≤ 9 then 4 else if precision ≤ 18 then 8 else 16

/-- Modelled from the spec (section 4.5): `ReadUnionType` (defined in
`hdfs-avro-scanner-ir.cc`, outside this slice) reads the zig-zag branch
index of a `[null, T]` union, which must be 0 or 1, and reports whether it
names the null branch.  Returns (success, is_null, state). -/
def readUnionType (null_union_position : Int) (st : DecodeState) :
    Bool × Bool × DecodeState :=
  match readZLong st.data with
  | none => (false, false, ⟨st.data, st.tuple, some AvroError.shortRead⟩)
  | some (v, rest) =>
      if v ≠ 0 ∧ v ≠ 1 then
        (false, false, ⟨st.data, st.tuple, some AvroError.invalidValue⟩)
      else (true, v = null_union_position, ⟨rest, st.tuple, st.status⟩)

/-- Modelled from the spec (section 4.5): `ReadAvroBoolean`, one byte
that must be 0 or 1. -/
def readAvroBoolean (slotOpt : Option SlotDescriptor) (st : DecodeState) :
    Bool × DecodeState :=
  match st.data with
  | [] => st.fail .shortRead
  | b :: rest =>
      if b ≥ 2 then st.fail .invalidValue
      else
        let st' : DecodeState := ⟨rest, st.tuple, st.status⟩
        match slotOpt with
        | none => (true, st')
        | some s => (true, st'.write s.tupleOffset (SlotWrite.boolean (b = 1)))

/-- Modelled from the spec (section 4.5): `ReadAvroInt32`, a zig-zag long
range-checked to 32 bits, promoted to the slot's int/bigint/float/double
type. -/
def readAvroInt32 (slotOpt : Option SlotDescriptor) (st : DecodeState) :
    Bool × DecodeState :=
  match readZLong st.data with
  | none => st.fail .shortRead
  | some (v, rest) =>
      if v < -(2 ^ 31) ∨ v ≥ 2 ^ 31 then st.fail .valueOverflow
      else
        let st' : DecodeState := ⟨rest, st.tuple, st.status⟩
        match slotOpt with
        | none => (true, st')
        | some s => (true, st'.write s.tupleOffset (SlotWrite.intPromoted s.colType.type v))

/-- Modelled from the spec (section 4.5): `ReadAvroInt64`, a zig-zag
long promoted to the slot's bigint/float/double type. -/
def readAvroInt64 (slotOpt : Option SlotDescriptor) (st : DecodeState) :
    Bool × DecodeState :=
  match readZLong st.data with
  | none => st.fail .shortRead
  | some (v, rest) =>
      let st' : DecodeState := ⟨rest, st.tuple, st.status⟩
      match slotOpt with
      | none => (true, st')
      | some s => (true, st'.write s.tupleOffset (SlotWrite.intPromoted s.colType.type v))

/-- Modelled from the spec (section 4.5): `ReadAvroFloat`, four raw
little-endian IEEE-754 bytes. -/
def readAvroFloat (slotOpt : Option SlotDescriptor) (st : DecodeState) :
    Bool × DecodeState :=
  match readBytesN 4 st.data with
  | none => st.fail .shortRead
  | some (payload, rest) =>
      let st' : DecodeState := ⟨rest, st.tuple, st.status⟩
      match slotOpt with
      | none => (true, st')
      | some s => (true, st'.write s.tupleOffset (SlotWrite.floatBytes s.colType.type payload))

/-- Modelled from the spec (section 4.5): `ReadAvroDouble`, eight raw
little-endian IEEE-754 bytes. -/
def readAvroDouble (slotOpt : Option SlotDescriptor) (st : DecodeState) :
    Bool × DecodeState :=
  match readBytesN 8 st.data with
  | none => st.fail .shortRead
  | some (payload, rest) =>
      let st' : DecodeState := ⟨rest, st.tuple, st.status⟩
      match slotOpt with
      | none => (true, st')
      | some s => (true, st'.write s.tupleOffset (SlotWrite.floatBytes s.colType.type payload))

/-- Modelled from the spec (section 4.5): the shared body of
`ReadAvroString` / `ReadAvroVarchar` / `ReadAvroChar`: a zig-zag length
(negative is invalid), then that many raw bytes; `shape` fixes the slot
value the variant stores. -/
def readAvroStringWith (shape : List Nat → SlotWrite) (slotOpt : Option SlotDescriptor)
    (st : DecodeState) : Bool × DecodeState :=
  match readZLong st.data with
  | none => st.fail .shortRead
  | some (len, bytes1) =>
      if len < 0 then st.fail (.invalidLength len)
      else match readBytesN len.toNat bytes1 with
      | none => st.fail .shortRead
      | some (payload, rest) =>
          let st' : DecodeState := ⟨rest, st.tuple, st.status⟩
          match slotOpt with
          | none => (true, st')
          | some s => (true, st'.write s.tupleOffset (shape payload))

/-- Modelled from the spec (section 4.5): varchar truncates to the
reader's declared length. -/
def varcharShape (maxLen : Int) (payload : List Nat) : SlotWrite :=
  SlotWrite.strBytes (payload.take maxLen.toNat)

/-- Modelled from the spec (section 4.5): char truncates to the declared
length and pads shorter values with spaces. -/
def charShape (len : Int) (payload : List Nat) : SlotWrite :=
  SlotWrite.strBytes (payload.take len.toNat ++
    List.replicate (len.toNat - payload.length) 32)

/-- Modelled from the spec (section 4.5): `ReadAvroDecimal`, a zig-zag
byte length that must fit the slot's decimal byte size, then that many
big-endian two's complement bytes. -/
def readAvroDecimal (slot_byte_size : Nat) (slotOpt : Option SlotDescriptor)
    (st : DecodeState) : Bool × DecodeState :=
  match readZLong st.data with
  | none => st.fail .shortRead
  | some (len, bytes1) =>
      if len < 0 then st.fail (.invalidLength len)
      else if len > (slot_byte_size : Int) then st.fail .valueOverflow
      else match readBytesN len.toNat bytes1 with
      | none => st.fail .shortRead
      | some (payload, rest) =>
          let st' : DecodeState := ⟨rest, st.tuple, st.status⟩
          match slotOpt with
          | none => (true, st')
          | some s => (true, st'.write s.tupleOffset (SlotWrite.decimalBytes payload))

/-- Null-union prelude of one record child (lines 575-582): a nullable
element reads the union branch first; a non-nullable element proceeds
directly.  Returns (success, is_null, state). -/
def nullPrelude (null_union_position : Int) (nullable : Bool) (st : DecodeState) :
    Bool × Bool × DecodeState :=
  if nullable then readUnionType null_union_position st else (true, false, st)

mutual
/-- The `switch (type)` of `HdfsAvroScanner::MaterializeTuple` (lines
585-631) on the effective type of a child (`AVRO_NULL` when the union
read said null, the element type otherwise).  The unreachable `default:`
arm (`DCHECK(false)`) is modelled as a failure with `unsupportedType`. -/
def materializeValue : AvroTy → Option SlotDescriptor → AvroFields → DecodeState →
    Bool × DecodeState
  | .anull, slotOpt, _, st => (true, setNullIfSlot slotOpt st)
  | .aboolean, slotOpt, _, st => readAvroBoolean slotOpt st
  | .aint32, slotOpt, _, st => readAvroInt32 slotOpt st
  | .aint64, slotOpt, _, st => readAvroInt64 slotOpt st
  | .afloat, slotOpt, _, st => readAvroFloat slotOpt st
  | .adouble, slotOpt, _, st => readAvroDouble slotOpt st
  | .astring, slotOpt, _, st =>
      match slotOpt with
      | some s =>
          if s.colType.type = PrimitiveType.TYPE_VARCHAR then
            readAvroStringWith (varcharShape s.colType.len) slotOpt st
          else if s.colType.type = PrimitiveType.TYPE_CHAR then
            readAvroStringWith (charShape s.colType.len) slotOpt st
          else readAvroStringWith SlotWrite.strBytes slotOpt st
      | none => readAvroStringWith SlotWrite.strBytes slotOpt st
  | .abytes, slotOpt, _, st =>
      match slotOpt with
      | some s =>
          if s.colType.type = PrimitiveType.TYPE_VARCHAR then
            readAvroStringWith (varcharShape s.colType.len) slotOpt st
          else if s.colType.type = PrimitiveType.TYPE_CHAR then
            readAvroStringWith (charShape s.colType.len) slotOpt st
          else readAvroStringWith SlotWrite.strBytes slotOpt st
      | none => readAvroStringWith SlotWrite.strBytes slotOpt st
  | .adecimal _ _, slotOpt, _, st =>
      readAvroDecimal
        (match slotOpt with
         | some s => decimalByteSize s.colType.precision
         | none => 0) slotOpt st
  | .arecord, _, fields, st => materializeFields fields st
  | _, _, _, st => st.fail .unsupportedType
/-- One child of the record loop of `HdfsAvroScanner::MaterializeTuple`
(lines 562-636): run the null-union prelude, set the null bit on a null
union value, otherwise dispatch on the element type. -/
def materializeField : AvroSchemaElement → DecodeState → Bool × DecodeState
  | .mk ty pos slotOpt fields, st0 =>
      match nullPrelude pos (pos != -1) st0 with
      | (false, _, st') => (false, st')
      | (true, is_null, st') =>
          if is_null then (true, setNullIfSlot slotOpt st')
          else materializeValue ty slotOpt fields st'
/-- The `for (element : record_schema.children)` loop of
`MaterializeTuple`: decode each child in order, aborting at the first
failure. -/
def materializeFields : AvroFields → DecodeState → Bool × DecodeState
  | .nil, st => (true, st)
  | .cons _ _ el rest, st =>
      match materializeField el st with
      | (false, st') => (false, st')
      | (true, st') => materializeFields rest st'
end

/-- `HdfsAvroScanner::MaterializeTuple` (lines 559-638) on a record
schema element. -/
def materializeTuple (record_schema : AvroSchemaElement) (st : DecodeState) :
    Bool × DecodeState :=
  materializeFields record_schema.fields st

/-- C2: the writer-to-reader promotion check
`HdfsAvroScanner::VerifyTypesMatch(ColumnType, ColumnType)` is a total
function on column-type pairs, and returns true exactly for the matrix
pairs: bool only to bool; int32 to int32/int64/float/double; int64 to
int64/float/double; float to float/double; double only to double; the
string family (both Avro string and bytes arrive here as `TYPE_STRING`)
to any string-family reader; decimal only to a decimal of identical
precision and scale; every other writer/reader pair is false. -/
theorem promotion_matrix_total (r w : ColumnType) :
    verifyTypesMatch r w = true ↔
      ((w.type = PrimitiveType.TYPE_BOOLEAN ∧ r.type = PrimitiveType.TYPE_BOOLEAN) ∨
       (w.type = PrimitiveType.TYPE_INT ∧
         (r.type = PrimitiveType.TYPE_INT ∨ r.type = PrimitiveType.TYPE_BIGINT ∨
          r.type = PrimitiveType.TYPE_FLOAT ∨ r.type = PrimitiveType.TYPE_DOUBLE)) ∨
       (w.type = PrimitiveType.TYPE_BIGINT ∧
         (r.type = PrimitiveType.TYPE_BIGINT ∨
          r.type = PrimitiveType.TYPE_FLOAT ∨ r.type = PrimitiveType.TYPE_DOUBLE)) ∨
       (w.type = PrimitiveType.TYPE_FLOAT ∧
         (r.type = PrimitiveType.TYPE_FLOAT ∨ r.type = PrimitiveType.TYPE_DOUBLE)) ∨
       (w.type = PrimitiveType.TYPE_DOUBLE ∧ r.type = PrimitiveType.TYPE_DOUBLE) ∨
       (w.type = PrimitiveType.TYPE_STRING ∧
         (r.type = PrimitiveType.TYPE_STRING ∨ r.type = PrimitiveType.TYPE_VARCHAR ∨
          r.type = PrimitiveType.TYPE_CHAR)) ∨
       (w.type = PrimitiveType.TYPE_DECIMAL ∧ r.type = PrimitiveType.TYPE_DECIMAL ∧
         r.precision = w.precision ∧ r.scale = w.scale)) := by
  obtain ⟨wt, wp, ws, wl⟩ := w
  obtain ⟨rt, rp, rs, rl⟩ := r
  cases wt <;> cases rt <;>
    simp [verifyTypesMatch, ColumnType.IsStringType] <;> tauto

/-- Helper: the rules behind the nullability gate can only answer OK or a
schema-resolution error, never a nullability mismatch. -/
theorem tail_no_nullability_mismatch (t f : AvroSchemaElement) (n : String) :
    verifyTypesMatchElemTail t f n ≠ .error (.nullabilityMismatch n) := by
  simp only [verifyTypesMatchElemTail]
  split
  · split <;> simp
  · split
    · simp
    · split
      · simp
      · split <;> simp

/-- C6: element-level schema resolution
(`VerifyTypesMatch(AvroSchemaElement, AvroSchemaElement)`) fails with
`AVRO_NULLABILITY_MISMATCH` exactly when a nullable writer (file) field
meets a non-nullable reader (table) field; with a non-nullable writer
field the check proceeds past the nullability gate to the remaining type
and promotion rules, whatever the reader's nullability. -/
theorem nullability_gate (table_schema file_schema : AvroSchemaElement)
    (field_name : String) :
    (table_schema.nullable = false → file_schema.nullable = true →
      verifyTypesMatchElem table_schema file_schema field_name =
        .error (.nullabilityMismatch field_name)) ∧
    (file_schema.nullable = false →
      verifyTypesMatchElem table_schema file_schema field_name =
        verifyTypesMatchElemTail table_schema file_schema field_name) ∧
    (verifyTypesMatchElem table_schema file_schema field_name =
        .error (.nullabilityMismatch field_name) →
      table_schema.nullable = false ∧ file_schema.nullable = true) := by
  refine ⟨fun ht hf => ?_, fun hf => ?_, fun h => ?_⟩
  · simp [verifyTypesMatchElem, ht, hf]
  · simp [verifyTypesMatchElem, hf]
  · by_cases ht : table_schema.nullable <;> by_cases hf : file_schema.nullable <;>
      simp [ht, hf] <;>
      · exfalso
        rw [verifyTypesMatchElem] at h
        simp [ht, hf] at h
        exact tail_no_nullability_mismatch table_schema file_schema field_name h

/-- Helper: the out-of-bounds field access on a negative index yields
`none` in the model. -/
theorem fieldAt_neg_none (fs : AvroFields) (i : Int) (h : i < 0) :
    fs.fieldAt? i = none := by
  cases fs with
  | nil => rfl
  | cons n d e rest =>
      rw [AvroFields.fieldAt?]
      rw [if_neg (by omega), if_pos h]

/-- C7: in `ResolveSchemas`, the reader (table) field index of a path
step is the path entry minus the partition-key count at depth 0
(`isFirst`) and the path entry itself at deeper levels, and resolution
fails with `AVRO_MISSING_FIELD` carrying that index and the record's
field count whenever the index is not below the count.  The second part
runs the check through `ResolveSchemas`'s entry point for a materialized
slot at depth 0. -/
theorem missing_field_check (env : ScanEnv) (slot : SlotDescriptor) (isFirst : Bool)
    (p : Int) (rest : List Int) (table_record file_record : AvroSchemaElement)
    (tmpl : TemplateTuple) :
    ((if isFirst then p - (env.numPartitionKeys : Int) else p) ≥
        (table_record.fields.length : Int) →
      resolveSlotLoop env slot isFirst (p :: rest) table_record file_record tmpl =
        .error (.missingField (if isFirst then p - (env.numPartitionKeys : Int) else p)
          table_record.fields.length)) ∧
    (slot.colPath = p :: rest → env.materializedSlots = [slot] →
     table_record.ty = AvroTy.arecord → file_record.ty = AvroTy.arecord →
     p - (env.numPartitionKeys : Int) ≥ (table_record.fields.length : Int) →
      resolveSchemas env table_record file_record tmpl =
        .error (.missingField (p - (env.numPartitionKeys : Int))
          table_record.fields.length)) := by
  constructor
  · intro hidx
    rw [resolveSlotLoop]
    simp only [if_pos hidx]
  · intro hpath hslots htr hfr hidx
    have h1 : resolveSlotLoop env slot true (p :: rest) table_record file_record tmpl =
        .error (.missingField (p - (env.numPartitionKeys : Int))
          table_record.fields.length) := by
      rw [resolveSlotLoop]
      simp only [if_true]
      rw [if_pos hidx]
    rw [resolveSchemas, if_neg (by simp [htr]), if_neg (by simp [hfr]), hslots,
      resolveSlots, hpath, h1]

/-- C9: the reader field index of `ResolveSchemas` is checked only
against the upper bound: a first path entry below the partition-key count
produces a negative index that the `MissingField` guard does not reject
(the guard compares against the non-negative field count), and the
negative index flows into the record field-name lookup
(`avro_schema_record_field_name`), an access whose behaviour the C source
leaves undefined. -/
theorem negative_index_unchecked (env : ScanEnv) (slot : SlotDescriptor)
    (p : Int) (rest : List Int) (table_record file_record : AvroSchemaElement)
    (tmpl : TemplateTuple) (hneg : p < (env.numPartitionKeys : Int)) :
    (p - (env.numPartitionKeys : Int) < 0) ∧
    (¬ (p - (env.numPartitionKeys : Int) ≥ (table_record.fields.length : Int))) ∧
    resolveSlotLoop env slot true (p :: rest) table_record file_record tmpl =
      .error (.outOfBoundsFieldAccess (p - (env.numPartitionKeys : Int))) := by
  have h0 : p - (env.numPartitionKeys : Int) < 0 := by omega
  have h1 : ¬ (p - (env.numPartitionKeys : Int) ≥
      (table_record.fields.length : Int)) := by omega
  refine ⟨h0, h1, ?_⟩
  rw [resolveSlotLoop]
  simp only [if_true]
  rw [if_neg h1, fieldAt_neg_none _ _ h0]

/-- C5: when a reader field at a non-terminal position of a slot's column
path is absent from the writer record but carries a default value — a
record-typed datum, since the path descends through the field —
resolution fails with `AVRO_UNSUPPORTED_DEFAULT_VALUE` (the spec's
UnsupportedDefaultRecord): `WriteDefaultValue`'s switch has no record
arm, so a default is only usable at the last path element. -/
theorem default_record_unsupported (env : ScanEnv) (slot : SlotDescriptor)
    (isFirst : Bool) (p : Int) (rest : List Int)
    (table_record file_record table_field : AvroSchemaElement)
    (tmpl : TemplateTuple) (field_name : String)
    (hguard : ¬ ((if isFirst then p - (env.numPartitionKeys : Int) else p) ≥
        (table_record.fields.length : Int)))
    (hat : table_record.fields.fieldAt?
        (if isFirst then p - (env.numPartitionKeys : Int) else p) =
      some (field_name, some AvroDatum.drecord, table_field))
    (habsent : file_record.fields.indexOfName field_name < 0)
    (hnonterminal : rest ≠ []) :
    resolveSlotLoop env slot isFirst (p :: rest) table_record file_record tmpl =
      .error (.unsupportedDefaultValue field_name) := by
  rw [resolveSlotLoop]
  rw [if_neg hguard, hat]
  simp only [if_pos habsent]
  rfl

/-- C8: block-payload preparation of the block loop: for the snappy
codec the decompressor is invoked on the block bytes with a length of the
block size minus the 4-byte trailing CRC, for deflate on the full block
size, and for the null codec (uncompressed file) the block bytes are used
directly, with no dependence on the decompressor at all. -/
theorem block_decompression_sizes (env : ScanEnv) (hdr : AvroFileHeader)
    (compressed_data : List Nat) (compressed_size : Int) :
    (hdr.isCompressed = true → hdr.compressionType = CompressionType.SNAPPY →
      blockData env hdr compressed_data compressed_size =
        decompressResult (env.decompress
          (compressed_data.take (compressed_size - 4).toNat))) ∧
    (hdr.isCompressed = true → hdr.compressionType = CompressionType.DEFLATE →
      blockData env hdr compressed_data compressed_size =
        decompressResult (env.decompress
          (compressed_data.take compressed_size.toNat))) ∧
    (hdr.isCompressed = false →
      blockData env hdr compressed_data compressed_size = .ok compressed_data) := by
  refine ⟨fun hc ht => ?_, fun hc ht => ?_, fun hc => ?_⟩
  · simp [blockData, hc, ht]
  · simp [blockData, hc, ht]
  · simp [blockData, hc]

/-- Sample single-field record schema `record<a:int32>` shared by the
concrete evaluations below. -/
def sampleSchema : AvroSchemaElement :=
  .mk AvroTy.arecord (-1) none
    (.cons "a" none (.mk AvroTy.aint32 (-1) none .nil) .nil)

/-- Sample oracle environment: no materialized slots, no partition keys,
a JSON parser that always yields `sampleSchema`, an identity
decompressor, a one-row sink capacity, no row limit, and a batch decoder
that decodes every requested row without consuming bytes. -/
def sampleEnv : ScanEnv :=
  ⟨sampleSchema, [], 0, fun _ => some sampleSchema, fun d => some d, 1, false,
    fun n d => ⟨n, d, none⟩⟩

/-- Witness for C8 at a concrete input: a snappy header on five block
bytes hands the decompressor one byte, a deflate header all five, and an
uncompressed header returns the bytes unchanged. -/
theorem block_decompression_sizes_witness :
    (blockData sampleEnv
        ⟨true, CompressionType.SNAPPY, AVRO_SNAPPY_CODEC, none, false, [], []⟩
        [7, 8, 9, 10, 11] 5 =
      decompressResult (sampleEnv.decompress ([7, 8, 9, 10, 11].take ((5 : Int) - 4).toNat))) ∧
    (blockData sampleEnv
        ⟨true, CompressionType.DEFLATE, AVRO_DEFLATE_CODEC, none, false, [], []⟩
        [7, 8, 9, 10, 11] 5 =
      decompressResult (sampleEnv.decompress ([7, 8, 9, 10, 11].take ((5 : Int)).toNat))) ∧
    (blockData sampleEnv
        ⟨false, CompressionType.NONE, [], none, false, [], []⟩
        [7, 8, 9, 10, 11] 5 = .ok [7, 8, 9, 10, 11]) :=
  ⟨(block_decompression_sizes sampleEnv _ _ _).1 rfl rfl,
   (block_decompression_sizes sampleEnv _ _ _).2.1 rfl rfl,
   (block_decompression_sizes sampleEnv _ _ _).2.2 rfl⟩

/-- Counterexample for C3: a metadata map whose very first count long is
0 (the single byte `0x00`) does not parse as an empty map — the source's
first-count check (line 123) rejects every value below one, so the result
is `AVRO_INVALID_METADATA_COUNT`, not success. -/
theorem first_zero_count_rejected :
    parseMetadata sampleEnv [0] = .error (.invalidMetadataCount 0) := by
  rfl

/-- C3 as amended: `ParseMetadata` rejects a first block count below one
— so an initial count of 0 is `AVRO_INVALID_METADATA_COUNT`, not an empty
map — while in the continuation of the map loop a count of 0 terminates
the map and a negative count is rejected with
`AVRO_INVALID_METADATA_COUNT`. -/
theorem metadata_count_rules :
    (∀ (env : ScanEnv) (bytes rest : List Nat) (v : Int),
      readZLong bytes = some (v, rest) → v < 1 →
      parseMetadata env bytes = .error (.invalidMetadataCount v)) ∧
    (∀ (env : ScanEnv) (fuel : Nat) (hdr : AvroFileHeader) (bytes : List Nat),
      parseMetadataLoop env (fuel + 1) 0 hdr bytes = .ok (hdr, bytes)) ∧
    (∀ (env : ScanEnv) (fuel : Nat) (n : Int) (hdr hdr' : AvroFileHeader)
       (bytes bytes' rest : List Nat) (v : Int), n ≠ 0 →
      parseEntries env n.toNat hdr bytes = .ok (hdr', bytes') →
      readZLong bytes' = some (v, rest) → v < 0 →
      parseMetadataLoop env (fuel + 1) n hdr bytes =
        .error (.invalidMetadataCount v)) := by
  refine ⟨fun env bytes rest v hread hv => ?_, fun env fuel hdr bytes => ?_,
    fun env fuel n hdr hdr' bytes bytes' rest v hn hentries hread hv => ?_⟩
  · rw [parseMetadata, hread]
    simp only [if_pos hv]
  · rw [parseMetadataLoop]
    simp
  · rw [parseMetadataLoop, if_neg hn, hentries]
    simp only [hread, if_pos hv]

/-- Witness for the amended C3 at concrete inputs: the empty map byte
`0x00` is rejected up front; a loop continuation count of 0 (after one
empty-keyed entry) terminates; a continuation count of `-1` (zig-zag byte
`0x01`) is rejected. -/
theorem metadata_count_rules_witness :
    (parseMetadata sampleEnv [0] = .error (.invalidMetadataCount 0)) ∧
    (parseMetadataLoop sampleEnv 3 0 initialHeader [9] = .ok (initialHeader, [9])) ∧
    (parseMetadataLoop sampleEnv 3 1 initialHeader [0, 0, 1] =
      .error (.invalidMetadataCount (-1))) :=
  ⟨metadata_count_rules.1 sampleEnv [0] [] 0 rfl (by norm_num),
   metadata_count_rules.2.1 sampleEnv 2 initialHeader [9],
   metadata_count_rules.2.2 sampleEnv 2 1 initialHeader initialHeader
     [0, 0, 1] [1] [] (-1) (by norm_num) rfl rfl (by norm_num)⟩

/-- Invariant tying the codegen flag to the stored writer schema: when a
writer schema has been recorded, the flag equals the structural equality
of the reader schema with it. -/
def FlagInv (env : ScanEnv) (hdr : AvroFileHeader) : Prop :=
  ∀ fs, hdr.fileSchema = some fs →
    hdr.useCodegendDecodeAvroData = avroSchemaEqual env.readerSchema fs

/-- Helper: one metadata entry preserves `FlagInv` — the `avro.schema`
entry re-establishes it by setting schema and flag together, the codec
and skipped entries touch neither. -/
theorem parseEntry_flagInv (env : ScanEnv) (hdr hdr' : AvroFileHeader)
    (bytes bytes' : List Nat) (hInv : FlagInv env hdr)
    (h : parseEntry env hdr bytes = .ok (hdr', bytes')) : FlagInv env hdr' := by
  rw [parseEntry] at h
  repeat' split at h
  all_goals first
    | exact Except.noConfusion h
    | (simp only [Except.ok.injEq, Prod.mk.injEq] at h
       obtain ⟨rfl, rfl⟩ := h
       intro fs hfs
       first
         | simp_all [FlagInv]
         | exact hInv fs hfs)

/-- Helper: the metadata entry loop preserves `FlagInv`. -/
theorem parseEntries_flagInv (env : ScanEnv) :
    ∀ (n : Nat) (hdr hdr' : AvroFileHeader) (bytes bytes' : List Nat),
    FlagInv env hdr → parseEntries env n hdr bytes = .ok (hdr', bytes') →
    FlagInv env hdr' := by
  intro n
  induction n with
  | zero =>
      intro hdr hdr' bytes bytes' hInv h
      rw [parseEntries] at h
      simp only [Except.ok.injEq, Prod.mk.injEq] at h
      obtain ⟨rfl, rfl⟩ := h
      exact hInv
  | succ m ih =>
      intro hdr hdr' bytes bytes' hInv h
      rw [parseEntries] at h
      split at h
      · cases h
      · exact ih _ _ _ _ (parseEntry_flagInv env hdr _ bytes _ hInv (by assumption)) h

/-- Helper: the metadata map loop preserves `FlagInv`. -/
theorem parseMetadataLoop_flagInv (env : ScanEnv) :
    ∀ (fuel : Nat) (n : Int) (hdr hdr' : AvroFileHeader) (bytes bytes' : List Nat),
    FlagInv env hdr → parseMetadataLoop env fuel n hdr bytes = .ok (hdr', bytes') →
    FlagInv env hdr' := by
  intro fuel
  induction fuel with
  | zero => intro n hdr hdr' bytes bytes' _ h; cases h
  | succ m ih =>
      intro n hdr hdr' bytes bytes' hInv h
      rw [parseMetadataLoop] at h
      split at h
      · simp only [Except.ok.injEq, Prod.mk.injEq] at h
        obtain ⟨rfl, rfl⟩ := h
        exact hInv
      · split at h
        · cases h
        · split at h
          · cases h
          · split at h
            · cases h
            · exact ih _ _ _ _ _
                (parseEntries_flagInv env _ hdr _ bytes _ hInv (by assumption)) h

/-- C4: after a successful `ParseMetadata`, the file header holds a
writer schema and `use_codegend_decode_avro_data` is true exactly when
the reader (table) schema and that writer (file) schema are structurally
identical (line 170's `avro_schema_equal`). -/
theorem codegen_flag_iff_schema_equal (env : ScanEnv) (bytes rest : List Nat)
    (hdr : AvroFileHeader) (hok : parseMetadata env bytes = .ok (hdr, rest)) :
    ∃ file_schema, hdr.fileSchema = some file_schema ∧
      (hdr.useCodegendDecodeAvroData = true ↔
        avroSchemaEqual env.readerSchema file_schema = true) := by
  rw [parseMetadata] at hok
  split at hok
  · cases hok
  · split at hok
    · cases hok
    · split at hok
      · cases hok
      · rename_i hloop
        split at hok
        · cases hok
        · rename_i fs hfs
          split at hok
          · cases hok
          · simp only [Except.ok.injEq, Prod.mk.injEq] at hok
            obtain ⟨rfl, rfl⟩ := hok
            have hInv : FlagInv env initialHeader := by
              intro fs' hfs'
              simp [initialHeader] at hfs'
            have hInv' := parseMetadataLoop_flagInv env _ _ _ _ _ _ hInv hloop
            exact ⟨fs, hfs, by rw [hInv' fs hfs]⟩

/-- Concrete metadata stream: one block of one entry (`avro.schema`
mapped to a one-byte value), then the terminating count 0.  Zig-zag: `2`
encodes 1, `22` encodes 11, `0` encodes 0. -/
def sampleMetadataBytes : List Nat :=
  [2, 22] ++ AVRO_SCHEMA_KEY ++ [2, 0, 0]

/-- Header produced by `parseMetadata` on `sampleMetadataBytes` under
`sampleEnv`. -/
def sampleParsedHeader : AvroFileHeader :=
  ⟨false, CompressionType.NONE, [], some sampleSchema, true, [], []⟩

/-- Witness for C4 at a concrete input: the sample metadata stream
parses, stores the writer schema and sets the flag, which the theorem
ties to structural schema equality. -/
theorem codegen_flag_iff_schema_equal_witness :
    ∃ file_schema, sampleParsedHeader.fileSchema = some file_schema ∧
      (sampleParsedHeader.useCodegendDecodeAvroData = true ↔
        avroSchemaEqual sampleEnv.readerSchema file_schema = true) :=
  codegen_flag_iff_schema_equal sampleEnv sampleMetadataBytes []
    sampleParsedHeader (by rfl)

/-- Helper: with a decoder that commits every row of a successful batch
and no row limit, a successful run of the block decode loop commits
exactly the remaining record count (given enough fuel, which the caller
always supplies). -/
theorem blockDecodeLoop_commits (env : ScanEnv)
    (Hdec : ∀ (n : Nat) (d : List Nat), (env.decodeAvroData n d).err = none →
      (env.decodeAvroData n d).numToCommit = n)
    (Hlim : env.reachedLimit = false) :
    ∀ (fuel : Nat) (num_records : Int) (data : List Nat) (committed n : Nat),
    num_records.toNat < fuel →
    blockDecodeLoop env fuel num_records data committed = .ok n →
    n = committed + num_records.toNat := by
  intro fuel
  induction fuel with
  | zero => intro nr data c n hf h; omega
  | succ m ih =>
      intro nr data c n hf h
      rw [blockDecodeLoop] at h
      split at h
      · rename_i hpos
        split at h
        · cases h
        · rename_i hmt
          split at h
          · cases h
          · rename_i ntc data' heq
            rw [Hlim] at h
            simp only [Bool.false_eq_true, if_false] at h
            have hmin1 : min nr ((env.capacity : Int)) ≤ nr := min_le_left _ _
            have hmin2 : 1 ≤ min nr ((env.capacity : Int)) := by omega
            have hntc : ntc = (min nr ((env.capacity : Int))).toNat := by
              by_cases hslots : env.materializedSlots.isEmpty
              · rw [blockBatchResult, if_pos hslots] at heq
                cases heq
                rfl
              · rw [blockBatchResult, if_neg hslots] at heq
                have h1 : (env.decodeAvroData
                    (min nr ((env.capacity : Int))).toNat data).err = none := by
                  rw [heq]
                have h2 := Hdec _ _ h1
                rw [heq] at h2
                exact h2
            have hrec := ih _ _ _ _ (by omega) h
            omega
      · rename_i hpos
        simp only [Except.ok.injEq] at h
        omega

/-- C1: when a block of `ProcessRange` completes without error (with the
spec's decoder contract — a successful batch decodes every requested row
— and the row limit not reached), the committed row count equals the
block's `n_records`, and the 16 bytes immediately after the block payload
were read and equal the file header's sync marker; the second part shows
the sync read fails with SyncLost whenever those bytes mismatch. -/
theorem block_commits_and_checks_sync (env : ScanEnv) (hdr : AvroFileHeader)
    (Hdec : ∀ (n : Nat) (d : List Nat), (env.decodeAvroData n d).err = none →
      (env.decodeAvroData n d).numToCommit = n)
    (Hlim : env.reachedLimit = false) :
    (∀ (input rest : List Nat) (n : Nat),
      processBlock env hdr input = .ok (n, rest) →
      ∃ (num_records compressed_size : Int)
        (bytes1 bytes2 bytes3 payload : List Nat),
        readZLong input = some (num_records, bytes1) ∧ 0 ≤ num_records ∧
        readZLong bytes1 = some (compressed_size, bytes2) ∧ 0 ≤ compressed_size ∧
        readBytesN compressed_size.toNat bytes2 = some (payload, bytes3) ∧
        readBytesN 16 bytes3 = some (hdr.sync, rest) ∧
        n = num_records.toNat) ∧
    (∀ (bytes sync rest : List Nat),
      readBytesN 16 bytes = some (sync, rest) → sync ≠ hdr.sync →
      readSync hdr bytes = .error .syncLost) := by
  constructor
  · intro input rest n h
    rw [processBlock] at h
    split at h
    · cases h
    · rename_i nr bytes1 hr1
      split at h
      · cases h
      · rename_i hnr
        split at h
        · cases h
        · rename_i cs bytes2 hr2
          split at h
          · cases h
          · rename_i hcs
            split at h
            · cases h
            · rename_i payload bytes3 hr3
              split at h
              · cases h
              · rename_i data hdata
                split at h
                · cases h
                · rename_i committed hloop
                  rw [readSync] at h
                  split at h
                  · cases h
                  · rename_i rest2 hr4
                    simp only [Except.ok.injEq, Prod.mk.injEq] at h
                    obtain ⟨rfl, rfl⟩ := h
                    split at hr4
                    · cases hr4
                    · rename_i sync2 rest3 hread
                      split at hr4
                      · rename_i hsync
                        simp only [Except.ok.injEq] at hr4
                        have hc := blockDecodeLoop_commits env Hdec Hlim
                          (nr.toNat + 1) nr data 0 committed (by omega) hloop
                        refine ⟨nr, cs, bytes1, bytes2, bytes3, payload,
                          hr1, by omega, hr2, by omega, hr3, ?_, by omega⟩
                        rw [hread, hsync, hr4]
                      · cases hr4
  · intro bytes sync rest hread hne
    rw [readSync, hread]
    simp only [if_neg hne]

/-- Sync marker used by the concrete block evaluations. -/
def sampleSync : List Nat := List.replicate 16 0

/-- Uncompressed file header with the sample sync marker. -/
def sampleBlockHeader : AvroFileHeader :=
  ⟨false, CompressionType.NONE, [], none, false, [], sampleSync⟩

/-- Witness for C1 at a concrete input: a one-record empty-payload block
followed by the correct sync marker commits exactly one row, and a sync
read over sixteen wrong bytes fails with SyncLost. -/
theorem block_commits_and_checks_sync_witness :
    (∃ (num_records compressed_size : Int)
       (bytes1 bytes2 bytes3 payload : List Nat),
      readZLong ([2, 0] ++ sampleSync) = some (num_records, bytes1) ∧
      0 ≤ num_records ∧
      readZLong bytes1 = some (compressed_size, bytes2) ∧ 0 ≤ compressed_size ∧
      readBytesN compressed_size.toNat bytes2 = some (payload, bytes3) ∧
      readBytesN 16 bytes3 = some (sampleBlockHeader.sync, []) ∧
      (1 : Nat) = num_records.toNat) ∧
    readSync sampleBlockHeader (List.replicate 16 1) = .error .syncLost :=
  ⟨(block_commits_and_checks_sync sampleEnv sampleBlockHeader
      (fun _ _ _ => rfl) rfl).1 ([2, 0] ++ sampleSync) [] 1 (by rfl),
   (block_commits_and_checks_sync sampleEnv sampleBlockHeader
      (fun _ _ _ => rfl) rfl).2 (List.replicate 16 1) (List.replicate 16 1) []
      (by rfl) (by decide)⟩

/-- Helper: a varint read only consumes bytes. -/
theorem readVarintAux_len : ∀ (bytes : List Nat) (shift acc u : Nat)
    (rest : List Nat), readVarintAux bytes shift acc = some (u, rest) →
    rest.length ≤ bytes.length := by
  intro bytes
  induction bytes with
  | nil => intro shift acc u rest h; cases h
  | cons b bs ih =>
      intro shift acc u rest h
      rw [readVarintAux] at h
      split at h
      · simp only [Option.some.injEq, Prod.mk.injEq] at h
        obtain ⟨-, rfl⟩ := h
        simp
      · have := ih _ _ _ _ h
        simp only [List.length_cons]
        omega

/-- Helper: a zig-zag long read only consumes bytes. -/
theorem readZLong_len (bytes rest : List Nat) (v : Int)
    (h : readZLong bytes = some (v, rest)) : rest.length ≤ bytes.length := by
  rw [readZLong] at h
  split at h
  · cases h
  · rename_i u rest' heq
    simp only [Option.some.injEq, Prod.mk.injEq] at h
    obtain ⟨-, rfl⟩ := h
    exact readVarintAux_len _ _ _ _ _ heq

/-- Helper: a fixed-size read only consumes bytes. -/
theorem readBytesN_len (n : Nat) (bytes payload rest : List Nat)
    (h : readBytesN n bytes = some (payload, rest)) :
    rest.length ≤ bytes.length := by
  rw [readBytesN] at h
  split at h
  · simp only [Option.some.injEq, Prod.mk.injEq] at h
    obtain ⟨-, rfl⟩ := h
    simp
  · cases h

/-- Invariant of a leaf reader: the cursor only moves forward, and a
false return leaves a non-OK parse status. -/
def ReaderInv (f : Option SlotDescriptor → DecodeState → Bool × DecodeState) : Prop :=
  ∀ (slotOpt : Option SlotDescriptor) (st : DecodeState),
    (f slotOpt st).2.data.length ≤ st.data.length ∧
    ((f slotOpt st).1 = false → (f slotOpt st).2.status ≠ none)

/-- Helper: the union-branch read satisfies the reader invariant. -/
theorem readUnionType_inv (p : Int) (st : DecodeState) :
    (readUnionType p st).2.2.data.length ≤ st.data.length ∧
    ((readUnionType p st).1 = false → (readUnionType p st).2.2.status ≠ none) := by
  rw [readUnionType]
  split
  · exact ⟨le_refl _, by simp⟩
  · rename_i v rest heq
    split
    · exact ⟨le_refl _, by simp⟩
    · exact ⟨readZLong_len _ _ _ heq, by simp⟩

/-- Helper: the boolean reader satisfies the reader invariant. -/
theorem readAvroBoolean_inv : ReaderInv readAvroBoolean := by
  intro slotOpt st
  rw [readAvroBoolean]
  split
  · exact ⟨le_refl _, by simp [DecodeState.fail]⟩
  · rename_i hd tl heq
    split
    · exact ⟨le_refl _, by simp [DecodeState.fail]⟩
    · split
      · exact ⟨by rw [heq]; simp, by simp⟩
      · exact ⟨by simp only [DecodeState.write]; rw [heq]; simp, by simp [DecodeState.write]⟩

/-- Helper: the int32 reader satisfies the reader invariant. -/
theorem readAvroInt32_inv : ReaderInv readAvroInt32 := by
  intro slotOpt st
  rw [readAvroInt32]
  split
  · exact ⟨le_refl _, by simp [DecodeState.fail]⟩
  · rename_i v rest heq
    split
    · exact ⟨le_refl _, by simp [DecodeState.fail]⟩
    · split
      · exact ⟨readZLong_len _ _ _ heq, by simp⟩
      · exact ⟨by simpa [DecodeState.write] using readZLong_len _ _ _ heq,
          by simp [DecodeState.write]⟩

/-- Helper: the int64 reader satisfies the reader invariant. -/
theorem readAvroInt64_inv : ReaderInv readAvroInt64 := by
  intro slotOpt st
  rw [readAvroInt64]
  split
  · exact ⟨le_refl _, by simp [DecodeState.fail]⟩
  · rename_i v rest heq
    split
    · exact ⟨readZLong_len _ _ _ heq, by simp⟩
    · exact ⟨by simpa [DecodeState.write] using readZLong_len _ _ _ heq,
        by simp [DecodeState.write]⟩

/-- Helper: the float reader satisfies the reader invariant. -/
theorem readAvroFloat_inv : ReaderInv readAvroFloat := by
  intro slotOpt st
  rw [readAvroFloat]
  split
  · exact ⟨le_refl _, by simp [DecodeState.fail]⟩
  · rename_i payload rest heq
    split
    · exact ⟨readBytesN_len _ _ _ _ heq, by simp⟩
    · exact ⟨by simpa [DecodeState.write] using readBytesN_len _ _ _ _ heq,
        by simp [DecodeState.write]⟩

/-- Helper: the double reader satisfies the reader invariant. -/
theorem readAvroDouble_inv : ReaderInv readAvroDouble := by
  intro slotOpt st
  rw [readAvroDouble]
  split
  · exact ⟨le_refl _, by simp [DecodeState.fail]⟩
  · rename_i payload rest heq
    split
    · exact ⟨readBytesN_len _ _ _ _ heq, by simp⟩
    · exact ⟨by simpa [DecodeState.write] using readBytesN_len _ _ _ _ heq,
        by simp [DecodeState.write]⟩

/-- Helper: every string-family reader satisfies the reader invariant. -/
theorem readAvroStringWith_inv (shape : List Nat → SlotWrite) :
    ReaderInv (readAvroStringWith shape) := by
  intro slotOpt st
  rw [readAvroStringWith]
  split
  · exact ⟨le_refl _, by simp [DecodeState.fail]⟩
  · rename_i len bytes1 heq
    split
    · exact ⟨le_refl _, by simp [DecodeState.fail]⟩
    · split
      · exact ⟨le_refl _, by simp [DecodeState.fail]⟩
      · rename_i payload rest heq2
        have h1 := readZLong_len _ _ _ heq
        have h2 := readBytesN_len _ _ _ _ heq2
        split
        · exact ⟨le_trans h2 h1, by simp⟩
        · exact ⟨le_trans h2 h1, by simp [DecodeState.write]⟩

/-- Helper: the decimal reader satisfies the reader invariant. -/
theorem readAvroDecimal_inv (slot_byte_size : Nat) :
    ReaderInv (readAvroDecimal slot_byte_size) := by
  intro slotOpt st
  rw [readAvroDecimal]
  split
  · exact ⟨le_refl _, by simp [DecodeState.fail]⟩
  · rename_i len bytes1 heq
    split
    · exact ⟨le_refl _, by simp [DecodeState.fail]⟩
    · split
      · exact ⟨le_refl _, by simp [DecodeState.fail]⟩
      · split
        · exact ⟨le_refl _, by simp [DecodeState.fail]⟩
        · rename_i payload rest heq2
          have h1 := readZLong_len _ _ _ heq
          have h2 := readBytesN_len _ _ _ _ heq2
          split
          · exact ⟨le_trans h2 h1, by simp⟩
          · exact ⟨le_trans h2 h1, by simp [DecodeState.write]⟩

/-- Helper: setting the null bit touches neither the cursor nor the
status. -/
theorem setNullIfSlot_data (o : Option SlotDescriptor) (st : DecodeState) :
    (setNullIfSlot o st).data = st.data ∧ (setNullIfSlot o st).status = st.status := by
  cases o <;> simp [setNullIfSlot, DecodeState.write]

/-- Helper: the null-union prelude satisfies the cursor and status
discipline of the leaf readers. -/
theorem nullPrelude_inv (p : Int) (nb : Bool) (st : DecodeState) :
    (nullPrelude p nb st).2.2.data.length ≤ st.data.length ∧
    ((nullPrelude p nb st).1 = false → (nullPrelude p nb st).2.2.status ≠ none) := by
  rw [nullPrelude]
  split
  · exact readUnionType_inv p st
  · exact ⟨le_refl _, by simp⟩

mutual
/-- Helper: the effective-type dispatch only consumes cursor bytes, and a
false return leaves a non-OK parse status. -/
theorem materializeValue_inv : ∀ (ty : AvroTy) (slotOpt : Option SlotDescriptor)
    (fields : AvroFields) (st : DecodeState),
    (materializeValue ty slotOpt fields st).2.data.length ≤ st.data.length ∧
    ((materializeValue ty slotOpt fields st).1 = false →
      (materializeValue ty slotOpt fields st).2.status ≠ none) := fun ty o fields st => by
  rw [materializeValue.eq_def]
  split <;>
    first
      | exact ⟨le_of_eq (congrArg List.length (setNullIfSlot_data _ _).1), by simp⟩
      | exact readAvroBoolean_inv _ _
      | exact readAvroInt32_inv _ _
      | exact readAvroInt64_inv _ _
      | exact readAvroFloat_inv _ _
      | exact readAvroDouble_inv _ _
      | exact readAvroStringWith_inv _ _ _
      | (split_ifs <;> exact readAvroStringWith_inv _ _ _)
      | (split
         · split_ifs <;> exact readAvroStringWith_inv _ _ _
         · exact readAvroStringWith_inv _ _ _)
      | exact readAvroDecimal_inv _ _ _
      | exact materializeFields_inv _ _
      | exact ⟨le_refl _, by simp [DecodeState.fail]⟩
/-- Helper: decoding one schema child only consumes cursor bytes, and a
false return leaves a non-OK parse status. -/
theorem materializeField_inv : ∀ (el : AvroSchemaElement) (st : DecodeState),
    (materializeField el st).2.data.length ≤ st.data.length ∧
    ((materializeField el st).1 = false → (materializeField el st).2.status ≠ none)
  | .mk ty pos slotOpt fields, st => by
      rw [materializeField]
      have hp := nullPrelude_inv pos (pos != -1) st
      rcases hnp : nullPrelude pos (pos != -1) st with ⟨b, isn, st1⟩
      rw [hnp] at hp
      simp only at hp
      cases b
      · simpa using hp
      · have hlen : st1.data.length ≤ st.data.length := hp.1
        cases isn
        · simp only [Bool.false_eq_true, if_false]
          have hv := materializeValue_inv ty slotOpt fields st1
          exact ⟨le_trans hv.1 hlen, hv.2⟩
        · simp only [if_true]
          exact ⟨le_trans (le_of_eq (congrArg List.length
            (setNullIfSlot_data slotOpt st1).1)) hlen, by simp⟩
/-- Helper: decoding a field list only consumes cursor bytes, and a false
return leaves a non-OK parse status. -/
theorem materializeFields_inv : ∀ (fs : AvroFields) (st : DecodeState),
    (materializeFields fs st).2.data.length ≤ st.data.length ∧
    ((materializeFields fs st).1 = false → (materializeFields fs st).2.status ≠ none)
  | .nil, st => by simp [materializeFields]
  | .cons n d el rest, st => by
      rw [materializeFields]
      have hf := materializeField_inv el st
      rcases hmf : materializeField el st with ⟨b, st1⟩
      rw [hmf] at hf
      simp only at hf
      cases b
      · simpa using hf
      · have hr := materializeFields_inv rest st1
        exact ⟨le_trans hr.1 hf.1, hr.2⟩
end

/-- Helper: a failing record decode splits into a successful prefix of
fields, then the failing field itself, whose output state is the final
state — no later field runs and nothing is rolled back. -/
theorem materializeFields_fail_decomp : ∀ (fs : AvroFields) (st st' : DecodeState),
    materializeFields fs st = (false, st') →
    ∃ (pre : AvroFields) (name : String) (dflt : Option AvroDatum)
      (el : AvroSchemaElement) (post : AvroFields) (stPre : DecodeState),
      fs = pre.append (.cons name dflt el post) ∧
      materializeFields pre st = (true, stPre) ∧
      materializeField el stPre = (false, st')
  | .nil, st, st' => by
      intro h
      rw [materializeFields] at h
      simp at h
  | .cons n d el rest, st, st' => by
      intro h
      rw [materializeFields] at h
      split at h
      · rename_i st1 heq
        simp only [Prod.mk.injEq] at h
        obtain ⟨-, rfl⟩ := h
        refine ⟨.nil, n, d, el, rest, st, ?_, ?_, heq⟩
        · rw [AvroFields.append]
        · rw [materializeFields]
      · rename_i st1 heq
        obtain ⟨pre, nm, df, e2, post, stPre, hfs, hpre, hfail⟩ :=
          materializeFields_fail_decomp rest st1 st' h
        refine ⟨.cons n d el pre, nm, df, e2, post, stPre, ?_, ?_, hfail⟩
        · rw [AvroFields.append, hfs]
        · rw [materializeFields, heq]
          exact hpre

/-- C10: whenever the interpreted materializer `MaterializeTuple` returns
false, the parse status has been set to a non-OK error; decoding aborted
at the first failing field — the run splits into a successful prefix of
the record's fields followed by the failing field, whose output state is
the final state — and neither the slot values written for the earlier
fields nor the cursor's advance over consumed bytes is undone (the final
state is exactly the failing field's output on the prefix state, and the
cursor never moves backwards). -/
theorem materialize_abort_no_rollback (record_schema : AvroSchemaElement)
    (st st' : DecodeState)
    (h : materializeTuple record_schema st = (false, st')) :
    st'.status ≠ none ∧
    st'.data.length ≤ st.data.length ∧
    ∃ (pre : AvroFields) (name : String) (dflt : Option AvroDatum)
      (el : AvroSchemaElement) (post : AvroFields) (stPre : DecodeState),
      record_schema.fields = pre.append (.cons name dflt el post) ∧
      materializeFields pre st = (true, stPre) ∧
      materializeField el stPre = (false, st') := by
  rw [materializeTuple] at h
  refine ⟨?_, ?_, materializeFields_fail_decomp _ _ _ h⟩
  · have h2 := (materializeFields_inv record_schema.fields st).2
    rw [h] at h2
    simpa using h2
  · have h1 := (materializeFields_inv record_schema.fields st).1
    rw [h] at h1
    simpa using h1

/-- Boolean slot bound to tuple offset 0, used by the concrete
materializer run. -/
def sampleSlotA : SlotDescriptor :=
  ⟨[0], ⟨PrimitiveType.TYPE_BOOLEAN, 0, 0, 0⟩, 0, 100, "a"⟩

/-- Record `record<a: boolean (slot 0), b: boolean (no slot)>` for the
concrete materializer run. -/
def sampleRecord2 : AvroSchemaElement :=
  .mk AvroTy.arecord (-1) none
    (.cons "a" none (.mk AvroTy.aboolean (-1) (some sampleSlotA) .nil)
      (.cons "b" none (.mk AvroTy.aboolean (-1) none .nil) .nil))

/-- Witness for C10 at a concrete input: on the one-byte stream `[1]` the
first boolean field decodes and writes slot 0, the second fails with
ShortRead; the final state keeps the first field's write and the consumed
byte. -/
theorem materialize_abort_no_rollback_witness :
    (⟨[], [(0, SlotWrite.boolean true)], some AvroError.shortRead⟩ : DecodeState).status ≠ none ∧
    (⟨[], [(0, SlotWrite.boolean true)], some AvroError.shortRead⟩ : DecodeState).data.length ≤
      (⟨[1], [], none⟩ : DecodeState).data.length ∧
    ∃ (pre : AvroFields) (name : String) (dflt : Option AvroDatum)
      (el : AvroSchemaElement) (post : AvroFields) (stPre : DecodeState),
      sampleRecord2.fields = pre.append (.cons name dflt el post) ∧
      materializeFields pre ⟨[1], [], none⟩ = (true, stPre) ∧
      materializeField el stPre =
        (false, ⟨[], [(0, SlotWrite.boolean true)], some AvroError.shortRead⟩) :=
  materialize_abort_no_rollback sampleRecord2 ⟨[1], [], none⟩
    ⟨[], [(0, SlotWrite.boolean true)], some AvroError.shortRead⟩
    (by simp [materializeTuple, materializeFields, materializeField,
      materializeValue, nullPrelude, readAvroBoolean, sampleRecord2,
      sampleSlotA, DecodeState.write, DecodeState.fail,
      AvroSchemaElement.fields, readUnionType, setNullIfSlot])

/-- Non-nullable int32 element for the nullability witness. -/
def sampleElemNonNull : AvroSchemaElement := .mk AvroTy.aint32 (-1) none .nil

/-- Nullable int32 element (null branch at union position 0) for the
nullability witness. -/
def sampleElemNullable : AvroSchemaElement := .mk AvroTy.aint32 0 none .nil

/-- Witness for C6 at concrete elements: a nullable writer into a
non-nullable reader is a NullabilityMismatch; a non-nullable writer into
a nullable reader proceeds to the remaining rules. -/
theorem nullability_gate_witness :
    verifyTypesMatchElem sampleElemNonNull sampleElemNullable "f" =
      .error (.nullabilityMismatch "f") ∧
    verifyTypesMatchElem sampleElemNullable sampleElemNonNull "f" =
      verifyTypesMatchElemTail sampleElemNullable sampleElemNonNull "f" :=
  ⟨(nullability_gate sampleElemNonNull sampleElemNullable "f").1 rfl rfl,
   (nullability_gate sampleElemNullable sampleElemNonNull "f").2.1 rfl⟩

/-- Witness for C7 at a concrete input: path entry 5 against the
one-field sample record fails with MissingField 5/1. -/
theorem missing_field_check_witness :
    resolveSlotLoop sampleEnv sampleSlotA true [5] sampleSchema sampleSchema [] =
      .error (.missingField 5 1) :=
  (missing_field_check sampleEnv sampleSlotA true 5 [] sampleSchema
    sampleSchema []).1 (by decide)

/-- Environment with two partition keys, for the negative-index
witness. -/
def sampleEnvPk : ScanEnv :=
  ⟨sampleSchema, [], 2, fun _ => some sampleSchema, fun d => some d, 1, false,
    fun n d => ⟨n, d, none⟩⟩

/-- Witness for C9 at a concrete input: first path entry 1 with two
partition keys gives index -1, which passes the MissingField guard and
reaches the field-name lookup out of bounds. -/
theorem negative_index_unchecked_witness :
    ((1 : Int) - ((sampleEnvPk.numPartitionKeys : Nat) : Int) < 0) ∧
    (¬ ((1 : Int) - ((sampleEnvPk.numPartitionKeys : Nat) : Int) ≥
      (sampleSchema.fields.length : Int))) ∧
    resolveSlotLoop sampleEnvPk sampleSlotA true [1] sampleSchema sampleSchema [] =
      .error (.outOfBoundsFieldAccess
        ((1 : Int) - ((sampleEnvPk.numPartitionKeys : Nat) : Int))) :=
  negative_index_unchecked sampleEnvPk sampleSlotA 1 [] sampleSchema
    sampleSchema [] (by decide)

/-- Reader record whose first field `x` is a record with a record-typed
default, for the unsupported-default witness. -/
def sampleTableRec : AvroSchemaElement :=
  .mk AvroTy.arecord (-1) none
    (.cons "x" (some AvroDatum.drecord) (.mk AvroTy.arecord (-1) none .nil)
      (.cons "y" none (.mk AvroTy.aint32 (-1) none .nil) .nil))

/-- Witness for C5 at a concrete input: reader field `x` (record-typed,
with a record default) at the non-terminal step of path `[0, 1]` is
absent from the writer record, and resolution fails with the unsupported
default error. -/
theorem default_record_unsupported_witness :
    resolveSlotLoop sampleEnv sampleSlotA true [0, 1] sampleTableRec
      sampleSchema [] = .error (.unsupportedDefaultValue "x") :=
  default_record_unsupported sampleEnv sampleSlotA true 0 [1] sampleTableRec
    sampleSchema (.mk AvroTy.arecord (-1) none .nil) [] "x"
    (by decide) (by rfl) (by decide) (by decide)

end ImpalaAvro
